import Mathlib

/-!
Verification of the reconciliation worker of the clickhouse-operator
repository (`src/pkg/controller/chi/worker.go`), as a shallow embedding.

Pure decision functions are translated directly; stateful code is
translated to functions that return a trace of the operations performed
(platform CRUD calls, status writes, schemer calls, polls) together with
the returned error, with the outcomes of external calls (the Kubernetes
client, the Schemer, the Creator) supplied as parameters.  A `ctxDone`
flag stands for `util.IsContextDone(ctx)`; it is constant during one call
because the model is pure, which matches the code's use of the check as a
pointwise guard.
-/

namespace ChiWorker

/-- Errors surfaced by the platform client.  The code only distinguishes
"not found" (`apierrors.IsNotFound`) from every other error. -/
inductive KErr where
  | notFound
  | other
  deriving DecidableEq, Repr

/-- `StatefulSetStatus` of worker.go (lines 1179-1186). -/
inductive StatefulSetStatus where
  | modified
  | new
  | same
  | unknown
  deriving DecidableEq, Repr

/-- Modelled from the spec: the CHI reconciling policy checked by
`IsReconcilingPolicyWait` / `IsReconcilingPolicyNoWait` (the accessors live
in the chop API package, which is not under src/).  The policy is a single
string compared against the two distinct constants, so the three cases are
mutually exclusive. -/
inductive ReconcilingPolicy where
  | unspecified
  | wait
  | noWait
  deriving DecidableEq, Repr

/-- Modelled from the spec: `chi.IsReconcilingPolicyWait()`. -/
def isReconcilingPolicyWait (p : ReconcilingPolicy) : Bool :=
  p = ReconcilingPolicy.wait

/-- Modelled from the spec: `chi.IsReconcilingPolicyNoWait()`. -/
def isReconcilingPolicyNoWait (p : ReconcilingPolicy) : Bool :=
  p = ReconcilingPolicy.noWait

/-- The operator configuration fields read by the worker
(`w.c.chop.Config()`). -/
structure OperatorConfig where
  reconcileWaitExclude : Bool
  reconcileWaitInclude : Bool
  deriving DecidableEq, Repr

/-- The fields of a `chop.ChiHost` the worker's decisions read: an
identifier standing for the host object, `host.GetShard().HostsCount()`,
and its CHI's reconciling policy (`host.CHI`). -/
structure ChiHost where
  id : Nat
  shardHostsCount : Nat
  policy : ReconcilingPolicy
  deriving DecidableEq, Repr

/-- `shouldWaitExcludeHost` (worker.go lines 613-636), branch for branch. -/
def shouldWaitExcludeHost (cfg : OperatorConfig) (host : ChiHost)
    (status : StatefulSetStatus) : Bool :=
  if status = StatefulSetStatus.new ∨ status = StatefulSetStatus.same then
    -- No need to wait for new and non-modified StatefulSets
    false
  else if host.shardHostsCount = 1 then
    -- Shard with only one host: no need to wait
    false
  else if isReconcilingPolicyWait host.policy then
    true
  else if isReconcilingPolicyNoWait host.policy then
    false
  else if !cfg.reconcileWaitExclude then
    false
  else
    true

/-- `shouldWaitIncludeHost` (worker.go lines 639-660). -/
def shouldWaitIncludeHost (cfg : OperatorConfig) (host : ChiHost)
    (status : StatefulSetStatus) : Bool :=
  if status = StatefulSetStatus.new ∨ status = StatefulSetStatus.same then
    false
  else if host.shardHostsCount = 1 then
    false
  else if isReconcilingPolicyWait host.policy then
    true
  else if isReconcilingPolicyNoWait host.policy then
    false
  else if cfg.reconcileWaitInclude = false then
    false
  else
    true

/-- C1: `shouldWaitExcludeHost(host, status)` is true exactly when the
status is neither New nor Same, the host's shard has more than one host,
and the policy is not NoWait while either the policy is Wait or the
configured `ReconcileWaitExclude` is set; in particular a host whose shard
has exactly one host always gets false.  The shard is the host's own
shard, so it has at least one host: the count is written `n + 1`. -/
theorem shouldWaitExcludeHost_correct (cfg : OperatorConfig) (idv n : Nat)
    (p : ReconcilingPolicy) (status : StatefulSetStatus) :
    (shouldWaitExcludeHost cfg ⟨idv, n + 1, p⟩ status = true ↔
      (status ≠ StatefulSetStatus.new ∧ status ≠ StatefulSetStatus.same ∧
        1 < n + 1 ∧ p ≠ ReconcilingPolicy.noWait ∧
        (p = ReconcilingPolicy.wait ∨ cfg.reconcileWaitExclude = true))) ∧
    shouldWaitExcludeHost cfg ⟨idv, 1, p⟩ status = false := by
  constructor
  · unfold shouldWaitExcludeHost isReconcilingPolicyWait isReconcilingPolicyNoWait
    rcases status <;> rcases p <;> rcases cfg with ⟨e, i⟩ <;> rcases e <;>
      rcases n with _ | n <;> simp
  · unfold shouldWaitExcludeHost
    rcases status <;> simp

/-! ## Operation traces

Stateful helpers are modelled as functions that return the list of
operations they perform, so that properties like "performs no platform
operation" or "then polls" are statements about the returned trace. -/

/-- The recognized `remote_servers` generator options
(`NewRemoteServersGeneratorOptions().ExcludeHost(host).ExcludeReconcileAttributes(...SetAdd())`). -/
structure RemoteServersOptions where
  excludeHostId : Option Nat
  excludeAttributesAdd : Bool
  deriving DecidableEq, Repr

/-- Which ConfigMap a ConfigMap operation touches: the CHI common map is
rendered from the generator options passed to `CreateConfigMapCHICommon`. -/
inductive CMKind where
  | common (options : Option RemoteServersOptions)
  | commonUsers
  | host (hostId : Nat)
  deriving DecidableEq, Repr

/-- One observable operation of the worker: platform CRUD, status writes,
schemer calls and polls. -/
inductive Op where
  | getConfigMapOp (cm : CMKind)
  | createConfigMapOp (cm : CMKind)
  | updateConfigMapOp (cm : CMKind)
  | getServiceOp
  | createServiceOp
  | updateServiceOp
  | deleteServiceOp
  | getStatefulSetOp
  | createStatefulSetOp
  | updateStatefulSetOp
  | deleteStatefulSetOp
  | updatePersistentVolumeOp
  | getPersistentVolumeClaimOp
  | updatePersistentVolumeClaimOp
  | updateCHIStatusOp
  | schemerCreateTablesOp
  | schemerDropDnsCacheOp
  | deleteWatchOp
  | updateWatchOp
  | installFinalizerOp
  | uninstallFinalizerOp
  | deleteConfigMapsOp
  | pollHost (untilInCluster : Bool)
  deriving DecidableEq, Repr

/-- Modelled from the spec: `pollHostContext(host, predicate)` (controller
code, not under src/) "loops at a bounded interval until predicate is true
or context is done".  On a done context it returns promptly without
touching the platform; otherwise we record the poll as one trace entry
tagged with the membership value the predicate waits for. -/
def pollHostContext (ctxDone : Bool) (untilInCluster : Bool) : List Op :=
  if ctxDone then [] else [Op.pollHost untilInCluster]

/-- `waitHostInCluster` (worker.go lines 680-682): poll with
`w.schemer.IsHostInCluster` as predicate. -/
def waitHostInCluster (ctxDone : Bool) : List Op :=
  pollHostContext ctxDone true

/-- `waitHostNotInCluster` (worker.go lines 684-688): poll with the
negation of `IsHostInCluster` as predicate. -/
def waitHostNotInCluster (ctxDone : Bool) : List Op :=
  pollHostContext ctxDone false

/-- `reconcileConfigMap` (worker.go lines 1003-1040).  `getRes` is the
outcome of `w.c.getConfigMap` (`none` means the map exists), `updRes` and
`createRes` the outcomes of the platform update/create calls.  The nested
`updateConfigMap`/`createConfigMap` helpers re-check the context, which a
constant `ctxDone = false` passes. -/
def reconcileConfigMap (ctxDone : Bool) (cm : CMKind)
    (getRes updRes createRes : Option KErr) (update : Bool) :
    List Op × Option KErr :=
  if ctxDone then ([], none)
  else
    let t0 := [Op.getConfigMapOp cm]
    if getRes = none then
      -- the ConfigMap exists
      if update = false then (t0, none)
      else if updRes = some KErr.notFound then
        -- not found even during update: try to create it
        (t0 ++ [Op.updateConfigMapOp cm, Op.createConfigMapOp cm], createRes)
      else (t0 ++ [Op.updateConfigMapOp cm], updRes)
    else if getRes = some KErr.notFound then
      (t0 ++ [Op.createConfigMapOp cm], createRes)
    else (t0, getRes)

/-- Platform outcomes for the two CHI-wide ConfigMaps (common and
common-users) of one `reconcileCHIConfigMaps` call. -/
structure CMEnv where
  getCommon : Option KErr
  updateCommon : Option KErr
  createCommon : Option KErr
  getUsers : Option KErr
  updateUsers : Option KErr
  createUsers : Option KErr
  deriving DecidableEq, Repr

/-- `reconcileCHIConfigMaps` (worker.go lines 451-475): the common map is
generated from `options`, the users map takes none; a failure on the first
map short-circuits the second. -/
def reconcileCHIConfigMaps (ctxDone : Bool) (env : CMEnv)
    (options : Option RemoteServersOptions) (update : Bool) :
    List Op × Option KErr :=
  if ctxDone then ([], none)
  else
    let r1 := reconcileConfigMap ctxDone (CMKind.common options)
      env.getCommon env.updateCommon env.createCommon update
    match r1.2 with
    | some e => (r1.1, some e)
    | none =>
      let r2 := reconcileConfigMap ctxDone CMKind.commonUsers
        env.getUsers env.updateUsers env.createUsers update
      (r1.1 ++ r2.1, r2.2)

/-- The options built by `excludeHost` (worker.go lines 597-604):
`ExcludeHost(host)` plus `ExcludeReconcileAttributes(... SetAdd())`. -/
def excludeHostOptions (host : ChiHost) : RemoteServersOptions :=
  { excludeHostId := some host.id, excludeAttributesAdd := true }

/-- The options built by `includeHost` (worker.go lines 666-671): only
`ExcludeReconcileAttributes(... SetAdd())`, no excluded host. -/
def includeHostOptions : RemoteServersOptions :=
  { excludeHostId := none, excludeAttributesAdd := true }

/-- `excludeHost` (worker.go lines 588-610).  Both the ConfigMap reconcile
and the wait have their results discarded in the source (`_ =`), and the
function returns nil on every path. -/
def excludeHost (cfg : OperatorConfig) (ctxDone : Bool) (env : CMEnv)
    (host : ChiHost) (status : StatefulSetStatus) : List Op × Option KErr :=
  if ctxDone then ([], none)
  else if shouldWaitExcludeHost cfg host status then
    ((reconcileCHIConfigMaps ctxDone env (some (excludeHostOptions host)) true).1
      ++ waitHostNotInCluster ctxDone, none)
  else ([], none)

/-- `includeHost` (worker.go lines 663-678).  Note: the source has no
context check at entry; the ConfigMap reconcile and the poll each perform
their own. -/
def includeHost (cfg : OperatorConfig) (ctxDone : Bool) (env : CMEnv)
    (host : ChiHost) (status : StatefulSetStatus) : List Op × Option KErr :=
  let t1 := (reconcileCHIConfigMaps ctxDone env (some includeHostOptions) true).1
  let t2 := if shouldWaitIncludeHost cfg host status then waitHostInCluster ctxDone
    else []
  (t1 ++ t2, none)

/-- C2: on a live context, `excludeHost` does nothing and returns nil when
`shouldWaitExcludeHost` is false; otherwise it reconciles the CHI
ConfigMaps with the `ExcludeHost(host)` / `ExcludeReconcileAttributes({Add})`
options and update=true, then polls until `IsHostInCluster(host)` is
false, and still returns nil. -/
theorem excludeHost_correct (cfg : OperatorConfig) (env : CMEnv)
    (host : ChiHost) (status : StatefulSetStatus) :
    excludeHost cfg false env host status =
      (if shouldWaitExcludeHost cfg host status then
        ((reconcileCHIConfigMaps false env
            (some { excludeHostId := some host.id, excludeAttributesAdd := true })
            true).1 ++ [Op.pollHost false], none)
      else ([], none)) := by
  unfold excludeHost waitHostNotInCluster pollHostContext excludeHostOptions
  split <;> simp_all

/-! ## CHI status counters and StatefulSet reconciliation -/

/-- The `CHI.Status` counters the worker bumps. -/
structure CHIStatus where
  addedHostsCount : Nat
  updatedHostsCount : Nat
  deletedHostsCount : Nat
  deriving DecidableEq, Repr

/-- Per-host `ReconcileAttributes` (spec §3; the chop record
`{Add, Modify, Unclear, Migrate, Reconciled}`, mutated through its
`SetX`/`UnsetX`/`IsX` accessors). -/
structure ReconcileAttributes where
  add : Bool
  modify : Bool
  unclear : Bool
  migrate : Bool
  reconciled : Bool
  deriving DecidableEq, Repr

def ReconcileAttributes.setAdd (a : ReconcileAttributes) : ReconcileAttributes :=
  { a with add := true }

def ReconcileAttributes.unsetAdd (a : ReconcileAttributes) : ReconcileAttributes :=
  { a with add := false }

def ReconcileAttributes.setModify (a : ReconcileAttributes) : ReconcileAttributes :=
  { a with modify := true }

def ReconcileAttributes.setUnclear (a : ReconcileAttributes) : ReconcileAttributes :=
  { a with unclear := true }

def ReconcileAttributes.setMigrate (a : ReconcileAttributes) : ReconcileAttributes :=
  { a with migrate := true }

def ReconcileAttributes.setReconciled (a : ReconcileAttributes) : ReconcileAttributes :=
  { a with reconciled := true }

/-- The two `new.WalkHosts` passes of `updateCHI` after the action plan's
walks (worker.go lines 295-312): mark `Migrate` on every host when this is
an update reconcile, then mark `Unclear` on every host that carries
neither `Add` nor `Modify`.  The input list carries the attributes the
`WalkAdded`/`WalkModified` walks left on the hosts of the new CHI. -/
def markMigrateUnclear (update : Bool) (hosts : List ReconcileAttributes) :
    List ReconcileAttributes :=
  let hosts := hosts.map (fun a => if update then a.setMigrate else a)
  hosts.map (fun a =>
    if a.add then a
    else if a.modify then a
    else a.setUnclear)

/-! ### PersistentVolumeClaim resource reconciliation -/

/-- A `core.ResourceList`: resource name to quantity.  Go maps have unique
keys; we use an association list with first-match lookup and key-wide
update, which agrees with map semantics. -/
abbrev ResourceList := List (String × Int)

def lookupResource (l : ResourceList) (k : String) : Option Int :=
  (l.find? (fun kv => kv.1 == k)).map Prod.snd

def setResourceQuantity (l : ResourceList) (k : String) (v : Int) : ResourceList :=
  l.map (fun kv => if kv.1 == k then (kv.1, v) else kv)

/-- `reconcileResource` (worker.go lines 1422-1461): when the resource
name is present on both sides and the quantities differ, write the desired
quantity into the PVC's list and update the PVC on the platform.  (A nil
Go map behaves as an empty one for the lookups, so the source's nil check
adds no extra case.) -/
def reconcileResource (ctxDone : Bool) (pvcL desL : ResourceList)
    (name : String) : ResourceList × List Op :=
  if ctxDone then (pvcL, [])
  else
    match lookupResource pvcL name, lookupResource desL name with
    | some pq, some dq =>
      if pq = dq then (pvcL, [])
      else (setResourceQuantity pvcL name dq, [Op.updatePersistentVolumeClaimOp])
    | _, _ => (pvcL, [])

/-- One step of the intersection walk of `reconcileResourcesList`. -/
def reconcileResourcesStep (ctxDone : Bool) (desL : ResourceList)
    (acc : ResourceList × List Op) (n : String) : ResourceList × List Op :=
  let r := reconcileResource ctxDone acc.1 desL n
  (r.1, acc.2 ++ r.2)

/-- `reconcileResourcesList` (worker.go lines 1394-1419): walk the
intersection (`intersect.Simple`) of the PVC's and the template's resource
names and reconcile each; the PVC's list is mutated in place as the walk
proceeds. -/
def reconcileResourcesList (ctxDone : Bool) (pvcL desL : ResourceList) :
    ResourceList × List Op :=
  if ctxDone then (pvcL, [])
  else
    let names := (pvcL.map Prod.fst).filter
      (fun n => (desL.map Prod.fst).contains n)
    names.foldl (reconcileResourcesStep ctxDone desL) (pvcL, [])

/-- `reconcileResources` (worker.go lines 1386-1391). -/
def reconcileResources (ctxDone : Bool) (pvcL desL : ResourceList) :
    ResourceList × List Op :=
  if ctxDone then (pvcL, [])
  else reconcileResourcesList ctxDone pvcL desL

/-- One `VolumeMount` visited by `reconcilePersistentVolumeClaims`:
whether it references a `VolumeClaimTemplate`, the PVC fetch outcome, and
the two request lists. -/
structure MountEnv where
  isTemplateRef : Bool
  getPVC : Option KErr
  pvcRequests : ResourceList
  desiredRequests : ResourceList
  deriving DecidableEq, Repr

/-- One iteration of the `host.WalkVolumeMounts` callback in
`reconcilePersistentVolumeClaims` (worker.go lines 1354-1380): skip
non-template mounts, tolerate a missing PVC, otherwise reconcile its
resources. -/
def reconcilePVCMount (ctxDone : Bool) (m : MountEnv) : List Op :=
  if ctxDone then []
  else if !m.isTemplateRef then []
  else
    match m.getPVC with
    | some _ => [Op.getPersistentVolumeClaimOp]
    | none =>
      Op.getPersistentVolumeClaimOp ::
        (reconcileResources ctxDone m.pvcRequests m.desiredRequests).2

/-- `reconcilePersistentVolumeClaims` (worker.go lines 1345-1383); always
returns nil. -/
def reconcilePersistentVolumeClaims (ctxDone : Bool)
    (mounts : List MountEnv) : List Op × Option KErr :=
  if ctxDone then ([], none)
  else ((mounts.map (reconcilePVCMount ctxDone)).flatten, none)

/-- `reconcilePersistentVolumes` (worker.go lines 1333-1342): prepare each
of the host's PersistentVolumes (a pure Creator call) and update it. -/
def reconcilePersistentVolumes (ctxDone : Bool) (pvCount : Nat) : List Op :=
  if ctxDone then []
  else List.replicate pvCount Op.updatePersistentVolumeOp

/-! ### StatefulSet reconciliation -/

/-- `createStatefulSet` (worker.go lines 1257-1288): run the platform
create, then bump `Status.AddedHostsCount` and write the status whatever
the create returned, and return the create's error. -/
def createStatefulSet (ctxDone : Bool) (st : CHIStatus)
    (createRes : Option KErr) : CHIStatus × List Op × Option KErr :=
  if ctxDone then (st, [], none)
  else
    ({ st with addedHostsCount := st.addedHostsCount + 1 },
      [Op.createStatefulSetOp, Op.updateCHIStatusOp], createRes)

/-- `updateStatefulSet` (worker.go lines 1291-1330): on a successful
platform update bump `Status.UpdatedHostsCount` and write the status; on
failure fall back to delete (error overwritten), PVC reconcile, then
`createStatefulSet`, returning the create's outcome. -/
def updateStatefulSet (ctxDone : Bool) (st : CHIStatus)
    (updRes : Option KErr) (mounts : List MountEnv)
    (createRes : Option KErr) : CHIStatus × List Op × Option KErr :=
  if ctxDone then (st, [], none)
  else
    match updRes with
    | none =>
      ({ st with updatedHostsCount := st.updatedHostsCount + 1 },
        [Op.updateStatefulSetOp, Op.updateCHIStatusOp], none)
    | some _ =>
      let tPvc := (reconcilePersistentVolumeClaims ctxDone mounts).1
      let r := createStatefulSet ctxDone st createRes
      (r.1, Op.updateStatefulSetOp :: Op.deleteStatefulSetOp :: tPvc ++ r.2.1,
        r.2.2)

/-- `reconcileStatefulSet` (worker.go lines 1219-1254): classify via
`getStatefulSetStatus` (one fetch), no-op on Same, otherwise fetch the
current object and update it when present (`getRes = none`), and create it
when the resulting error is NotFound. -/
def reconcileStatefulSet (ctxDone : Bool) (st : CHIStatus)
    (stsStatus : StatefulSetStatus) (getRes updRes : Option KErr)
    (mounts : List MountEnv) (createRes : Option KErr) :
    CHIStatus × List Op × Option KErr :=
  if ctxDone then (st, [], none)
  else
    let t0 := [Op.getStatefulSetOp]
    if stsStatus = StatefulSetStatus.same then (st, t0, none)
    else
      let t1 := t0 ++ [Op.getStatefulSetOp]
      let r1 :=
        if getRes = none then updateStatefulSet ctxDone st updRes mounts createRes
        else (st, ([] : List Op), getRes)
      if r1.2.2 = some KErr.notFound then
        let r2 := createStatefulSet ctxDone r1.1 createRes
        (r2.1, t1 ++ r1.2.1 ++ r2.2.1, r2.2.2)
      else (r1.1, t1 ++ r1.2.1, r1.2.2)

/-- `getStatefulSetStatus` (worker.go lines 1188-1216).  `curRes` is the
fetch outcome (`none` = found), the labels are the `StatefulSetVersion`
label of the current and desired objects, `specsEqual` the boolean
`equal` returned by `messagediff.DeepDiff` on the two specs.  The source
returns Modified exactly when that boolean is true. -/
def getStatefulSetStatus (curRes : Option KErr) (curLabel newLabel : Option Nat)
    (specsEqual : Bool) : StatefulSetStatus :=
  if curRes = none then
    if (match curLabel, newLabel with
        | some c, some n => c == n
        | _, _ => false) then
      StatefulSetStatus.same
    else if specsEqual then StatefulSetStatus.modified
    else if curRes = some KErr.notFound then StatefulSetStatus.new
    else StatefulSetStatus.unknown
  else if curRes = some KErr.notFound then StatefulSetStatus.new
  else StatefulSetStatus.unknown

/-! ### Service reconciliation -/

/-- `core.ServiceType`. -/
inductive ServiceType where
  | clusterIPType
  | nodePort
  | loadBalancer
  | externalName
  deriving DecidableEq, Repr

/-- `core.ServiceExternalTrafficPolicyType`: `localOnly` stands for
`Local`, `clusterWide` for `Cluster`. -/
inductive TrafficPolicy where
  | clusterWide
  | localOnly
  deriving DecidableEq, Repr

/-- A `core.ServicePort` entry. -/
structure ServicePort where
  portName : String
  port : Int
  targetPort : Int
  nodePort : Int
  deriving DecidableEq, Repr

structure ServiceSpec where
  type : ServiceType
  ports : List ServicePort
  clusterIP : String
  externalTrafficPolicy : TrafficPolicy
  healthCheckNodePort : Int
  deriving DecidableEq, Repr

/-- The parts of a `core.Service` that `updateService` touches. -/
structure KService where
  labels : List (String × String)
  annotations : List (String × String)
  finalizers : List String
  resourceVersion : Nat
  spec : ServiceSpec
  deriving DecidableEq, Repr

/-- Modelled from the spec: `util.MergeStringMapsPreserve` (not under
src/) merges the second map into the first "preserving existing keys on
collision". -/
def mergeStringMapsPreserve (dst extra : List (String × String)) :
    List (String × String) :=
  dst ++ extra.filter (fun kv => !(dst.map Prod.fst).contains kv.1)

/-- Modelled from the spec: `util.MergeStringArrays` (not under src/)
merges the second array into the first preserving existing entries. -/
def mergeStringArrays (dst extra : List String) : List String :=
  dst ++ extra.filter (fun s => !dst.contains s)

/-- The inner loop of `updateService` over `newService.Spec.Ports`
(worker.go lines 1068-1080): the first current port with the same `port`
number replaces the new entry wholesale; otherwise the new entry stays. -/
def reusePort (curPorts : List ServicePort) (newPort : ServicePort) :
    ServicePort :=
  match curPorts.find? (fun curPort => curPort.port == newPort.port) with
  | some curPort => curPort
  | none => newPort

/-- The preparation `updateService` (worker.go lines 1043-1100) performs
on the new service before submitting it: inherit `resourceVersion`, reuse
port entries when both services are NodePort or both LoadBalancer, copy
the immutable `clusterIP`, copy `healthCheckNodePort` while both sides
keep `ExternalTrafficPolicy = Local`, and merge metadata preserving
current entries. -/
def prepareServiceForUpdate (cur new : KService) : KService :=
  let new := { new with resourceVersion := cur.resourceVersion }
  let new :=
    if (cur.spec.type = ServiceType.nodePort ∧ new.spec.type = ServiceType.nodePort) ∨
       (cur.spec.type = ServiceType.loadBalancer ∧
         new.spec.type = ServiceType.loadBalancer) then
      { new with spec :=
        { new.spec with ports := new.spec.ports.map (reusePort cur.spec.ports) } }
    else new
  let new := { new with spec := { new.spec with clusterIP := cur.spec.clusterIP } }
  let new :=
    if cur.spec.externalTrafficPolicy = TrafficPolicy.localOnly ∧
       new.spec.externalTrafficPolicy = TrafficPolicy.localOnly then
      { new with spec :=
        { new.spec with healthCheckNodePort := cur.spec.healthCheckNodePort } }
    else new
  { new with
    labels := mergeStringMapsPreserve new.labels cur.labels,
    annotations := mergeStringMapsPreserve new.annotations cur.annotations,
    finalizers := mergeStringArrays new.finalizers cur.finalizers }

/-- `updateService` as a trace function (worker.go lines 1043-1121): the
preparation is pure; a second context check guards the platform update. -/
def updateService (ctxDone : Bool) (updRes : Option KErr) :
    List Op × Option KErr :=
  if ctxDone then ([], none)
  else if ctxDone then ([], none)
  else ([Op.updateServiceOp], updRes)

/-- `reconcileService` (worker.go lines 1147-1177): fetch, update when the
service exists (`svcGet = none`), and on any remaining error delete the
service if it exists and create it anew. -/
def reconcileService (ctxDone : Bool) (svcGet updRes createRes : Option KErr) :
    List Op × Option KErr :=
  if ctxDone then ([], none)
  else
    let t0 := [Op.getServiceOp]
    let r1 := if svcGet = none then updateService ctxDone updRes
      else (([] : List Op), svcGet)
    match r1.2 with
    | none => (t0 ++ r1.1, none)
    | some _ => (t0 ++ r1.1 ++ [Op.deleteServiceOp, Op.createServiceOp], createRes)

/-! ### Per-host reconciliation -/

/-- External outcomes consumed by one `reconcileHost` call. -/
structure HostEnv where
  cmExclude : CMEnv
  cmInclude : CMEnv
  hostCMGet : Option KErr
  hostCMUpd : Option KErr
  hostCMCreate : Option KErr
  stsCurRes : Option KErr
  stsCurLabel : Option Nat
  stsNewLabel : Option Nat
  stsSpecsEqual : Bool
  stsGet : Option KErr
  stsUpd : Option KErr
  stsCreate : Option KErr
  mounts : List MountEnv
  pvCount : Nat
  svcGet : Option KErr
  svcUpd : Option KErr
  svcCreate : Option KErr
  deriving DecidableEq, Repr

/-- `reconcileHost` (worker.go lines 516-585): build artifacts (pure),
classify the StatefulSet, exclude, reconcile ConfigMap / StatefulSet /
PersistentVolumes / Service, clear `Add`, create tables when `Migrate` is
set (error only logged), include, mark `Reconciled`.  The classification
is performed once and reused for both the exclude and the include
decision. -/
def reconcileHost (cfg : OperatorConfig) (ctxDone : Bool) (host : ChiHost)
    (attrs : ReconcileAttributes) (st : CHIStatus) (env : HostEnv) :
    ReconcileAttributes × CHIStatus × List Op × Option KErr :=
  if ctxDone then (attrs, st, [], none)
  else
    let status := getStatefulSetStatus env.stsCurRes env.stsCurLabel
      env.stsNewLabel env.stsSpecsEqual
    let t0 := [Op.getStatefulSetOp]
    let rExc := excludeHost cfg ctxDone env.cmExclude host status
    match rExc.2 with
    | some e => (attrs, st, t0 ++ rExc.1, some e)
    | none =>
      let rCM := reconcileConfigMap ctxDone (CMKind.host host.id)
        env.hostCMGet env.hostCMUpd env.hostCMCreate true
      match rCM.2 with
      | some e => (attrs, st, t0 ++ rExc.1 ++ rCM.1, some e)
      | none =>
        let rSTS := reconcileStatefulSet ctxDone st
          (getStatefulSetStatus env.stsCurRes env.stsCurLabel env.stsNewLabel
            env.stsSpecsEqual)
          env.stsGet env.stsUpd env.mounts env.stsCreate
        match rSTS.2.2 with
        | some e => (attrs, rSTS.1, t0 ++ rExc.1 ++ rCM.1 ++ rSTS.2.1, some e)
        | none =>
          let tPV := reconcilePersistentVolumes ctxDone env.pvCount
          let rSvc := reconcileService ctxDone env.svcGet env.svcUpd env.svcCreate
          match rSvc.2 with
          | some e =>
            (attrs, rSTS.1,
              t0 ++ rExc.1 ++ rCM.1 ++ rSTS.2.1 ++ tPV ++ rSvc.1, some e)
          | none =>
            let attrs1 := attrs.unsetAdd
            let tMig := if attrs1.migrate then [Op.schemerCreateTablesOp] else []
            let rInc := includeHost cfg ctxDone env.cmInclude host status
            match rInc.2 with
            | some e =>
              (attrs1, rSTS.1,
                t0 ++ rExc.1 ++ rCM.1 ++ rSTS.2.1 ++ tPV ++ rSvc.1 ++ tMig
                  ++ rInc.1, some e)
            | none =>
              (attrs1.setReconciled, rSTS.1,
                t0 ++ rExc.1 ++ rCM.1 ++ rSTS.2.1 ++ tPV ++ rSvc.1 ++ tMig
                  ++ rInc.1, none)

/-! ## Finalizer, deletion, updateCHI and the worker loop -/

def FinalizerName : String := "finalizer.clickhouseinstallation.altinity.com"

/-- `ensureFinalizer` (worker.go lines 196-211).  The presence check
(`util.InArray`) only feeds a log line ("finalizer already installed");
control then falls through the comment "No finalizer found - need to
install it" and `installFinalizer` is called unconditionally, so both
branches of the model install. -/
def ensureFinalizer (finalizers : List String) : List Op :=
  if FinalizerName ∈ finalizers then
    [Op.installFinalizerOp]
  else
    [Op.installFinalizerOp]

/-- External outcomes of one `deleteCHI` call.  The cluster/shard/host
delete walk is summarized by its trace: every error inside it is discarded
by the walk (worker.go lines 756-758 return the callback error to
`WalkClusters`, which the source ignores), and the ConfigMap/Service
delete errors are overwritten before the final nil return. -/
structure DeleteEnv where
  ctxDone2 : Bool
  normalizeErr : Option KErr
  clustersTrace : List Op
  deriving DecidableEq, Repr

/-- `deleteCHI` (worker.go lines 729-776): re-normalize (the only error
that propagates), drop the CHI from monitoring, delete all clusters, then
(behind a second context check) delete the shared ConfigMaps and the CHI
Service, returning nil. -/
def deleteCHI (ctxDone : Bool) (env : DeleteEnv) : List Op × Option KErr :=
  if ctxDone then ([], none)
  else
    match env.normalizeErr with
    | some e => ([], some e)
    | none =>
      let t := Op.deleteWatchOp :: env.clustersTrace
      if env.ctxDone2 then (t, none)
      else (t ++ [Op.deleteConfigMapsOp, Op.deleteServiceOp], none)

/-- External outcomes of one `finalizeCHI` call. -/
structure FinalizeEnv where
  curFetchFailed : Bool
  finalizerPresent : Bool
  statusWriteErr : Option KErr
  deleteEnv : DeleteEnv
  deriving DecidableEq, Repr

/-- `finalizeCHI` (worker.go lines 691-726): every path returns nil; the
`deleteCHI` result and the finalizer uninstall error are discarded. -/
def finalizeCHI (ctxDone : Bool) (env : FinalizeEnv) : List Op × Option KErr :=
  if ctxDone then ([], none)
  else if env.curFetchFailed then ([], none)
  else if !env.finalizerPresent then ([], none)
  else if env.statusWriteErr ≠ none then ([Op.updateCHIStatusOp], none)
  else
    let r := deleteCHI ctxDone env.deleteEnv
    (Op.updateCHIStatusOp :: r.1 ++ [Op.uninstallFinalizerOp], none)

/-- External outcomes of one `updateCHI` call.  `hostsAttrs` carries the
reconcile attributes the `WalkAdded`/`WalkModified` walks left on the
hosts of the new CHI; the trace of the inner `reconcile` walk is modelled
by the per-helper functions above and not repeated here. -/
structure UpdateEnv where
  resourceVersionUnchanged : Bool
  deletionTimestampIsZero : Bool
  finalizers : List String
  hasActionsToDo : Bool
  statusStartErr : Option KErr
  isStopped : Bool
  hostsAttrs : List ReconcileAttributes
  reconcileErr : Option KErr
  addedHostsOnUpdate : Nat
  removedTrace : List Op
  finalizeEnv : FinalizeEnv
  deriving DecidableEq, Repr

/-- `updateCHI` (worker.go lines 214-395).  Returns the marked host
attributes (the two `WalkHosts` passes are `markMigrateUnclear`), the
operation trace, and the returned error: the short-circuit paths return
nil, a `reconcile` failure is logged as an event and swallowed (line 331
`return nil`), and the deletion path delegates to `finalizeCHI`.  `isUpdate`
is `(old != nil) && (new != nil)`. -/
def updateCHI (isUpdate : Bool) (env : UpdateEnv) :
    List ReconcileAttributes × List Op × Option KErr :=
  if isUpdate ∧ env.resourceVersionUnchanged then (env.hostsAttrs, [], none)
  else if env.deletionTimestampIsZero then
    let t0 := ensureFinalizer env.finalizers
    if !env.hasActionsToDo then (env.hostsAttrs, t0, none)
    else if env.statusStartErr ≠ none then
      (env.hostsAttrs, t0 ++ [Op.updateCHIStatusOp], none)
    else
      let t1 := t0 ++ [Op.updateCHIStatusOp]
        ++ (if env.isStopped then [Op.deleteWatchOp] else [])
      let marked := markMigrateUnclear isUpdate env.hostsAttrs
      match env.reconcileErr with
      | some _ => (marked, t1, none)
      | none =>
        let t2 := t1
          ++ List.replicate (if isUpdate then env.addedHostsOnUpdate else 0)
            Op.schemerCreateTablesOp
          ++ env.removedTrace
          ++ (if !env.isStopped then [Op.updateWatchOp] else [])
          ++ [Op.updateCHIStatusOp]
        (marked, t2, none)
  else
    let r := finalizeCHI false env.finalizeEnv
    (env.hostsAttrs, r.1, r.2)

/-- The typed commands of the work queue (worker.go lines 108-168). -/
inductive CmdKind where
  | add
  | update
  | delete
  | unknownCmd
  deriving DecidableEq, Repr

inductive Command where
  | reconcileCHI (k : CmdKind)
  | reconcileCHIT (k : CmdKind)
  | reconcileChopConfig (k : CmdKind)
  | dropDns (resolved : Bool)
  | unknownItem
  deriving DecidableEq, Repr

/-- External outcomes for one `processItem` dispatch: the CHIT and chop
config handlers live on the controller, outside src/. -/
structure DispatchEnv where
  updateEnv : UpdateEnv
  deleteEnv : DeleteEnv
  chitResult : Option KErr
  chopConfigResult : Option KErr
  deriving DecidableEq, Repr

/-- `processItem` (worker.go lines 100-169): nil on a done context, then
dispatch by item type; unknown items and commands are handed to the
runtime error handler and dropped with a nil return; `DropDns` flushes the
DNS cache when the initiator resolves to a CHI and always returns nil. -/
def processItem (ctxDone : Bool) (cmd : Command) (env : DispatchEnv) :
    List Op × Option KErr :=
  if ctxDone then ([], none)
  else
    match cmd with
    | Command.reconcileCHI CmdKind.add =>
      let r := updateCHI false env.updateEnv
      (r.2.1, r.2.2)
    | Command.reconcileCHI CmdKind.update =>
      let r := updateCHI true env.updateEnv
      (r.2.1, r.2.2)
    | Command.reconcileCHI CmdKind.delete => deleteCHI ctxDone env.deleteEnv
    | Command.reconcileCHI CmdKind.unknownCmd => ([], none)
    | Command.reconcileCHIT CmdKind.unknownCmd => ([], none)
    | Command.reconcileCHIT _ => ([], env.chitResult)
    | Command.reconcileChopConfig CmdKind.unknownCmd => ([], none)
    | Command.reconcileChopConfig _ => ([], env.chopConfigResult)
    | Command.dropDns true => ([Op.schemerDropDnsCacheOp], none)
    | Command.dropDns false => ([], none)
    | Command.unknownItem => ([], none)

/-! ### The worker loop (`run`, worker.go lines 68-97) -/

/-- What one blocking `Get()` yields: an item, or the shutdown signal. -/
inductive QEntry (α : Type) where
  | shutdown
  | item (i : α)
  deriving DecidableEq, Repr

/-- The queue-facing operations of the worker loop.  `addRateLimited` is
the queue's re-enqueue call: it is part of the vocabulary so that "the
worker never re-enqueues" is a statement about the trace, and `run` never
emits it. -/
inductive QueueOp (α : Type) where
  | get (i : α)
  | getShutdown
  | handleErr (e : KErr)
  | forget (i : α)
  | done (i : α)
  | addRateLimited (i : α)
  deriving DecidableEq, Repr

/-- The trace of `run` (worker.go lines 68-97) on a sequence of dequeued
entries, with `proc` the outcome of `processItem` for each item: a
non-nil error goes to `utilruntime.HandleError`, then `Forget` and `Done`
are called unconditionally, then the loop blocks on the next `Get`. -/
def runTrace {α : Type} (proc : α → Option KErr) :
    List (QEntry α) → List (QueueOp α)
  | [] => []
  | QEntry.shutdown :: _ => [QueueOp.getShutdown]
  | QEntry.item i :: rest =>
    QueueOp.get i ::
      ((match proc i with
        | some e => [QueueOp.handleErr e]
        | none => []) ++
        (QueueOp.forget i :: QueueOp.done i :: runTrace proc rest))

/-! ## Claim theorems -/

/-- C3: for every item dequeued by the worker loop (other than the
shutdown signal), `Forget(item)` and then `Done(item)` appear in the trace
after its `Get` and before any later `Get`, whatever `processItem`
returned for it. -/
theorem run_forget_done_before_next_get {α : Type} (proc : α → Option KErr)
    (entries : List (QEntry α)) (n : Nat) (a : α)
    (h : (runTrace proc entries)[n]? = some (QueueOp.get a)) :
    ∃ k1 k2, n < k1 ∧ k1 < k2 ∧
      (runTrace proc entries)[k1]? = some (QueueOp.forget a) ∧
      (runTrace proc entries)[k2]? = some (QueueOp.done a) ∧
      ∀ m (b : α), (runTrace proc entries)[m]? = some (QueueOp.get b) →
        n < m → k2 < m := by
  induction entries generalizing n with
  | nil => simp [runTrace] at h
  | cons e rest ih =>
    cases e with
    | shutdown =>
      rcases n with _ | n <;> simp [runTrace] at h
    | item i =>
      cases hp : proc i with
      | none =>
        have htr : runTrace proc (QEntry.item i :: rest) =
            QueueOp.get i :: QueueOp.forget i :: QueueOp.done i ::
              runTrace proc rest := by
          simp [runTrace, hp]
        rw [htr] at h ⊢
        rcases n with _ | _ | _ | n
        · have ha : i = a := by simpa using h
          subst ha
          refine ⟨1, 2, by omega, by omega, by simp, by simp, ?_⟩
          intro m b hm hm0
          rcases m with _ | _ | _ | m
          · omega
          · simp at hm
          · simp at hm
          · omega
        · simp at h
        · simp at h
        · simp only [List.getElem?_cons_succ] at h
          obtain ⟨k1, k2, hk1, hk12, hf, hd, hnext⟩ := ih n h
          refine ⟨k1 + 3, k2 + 3, by omega, by omega, by simpa using hf,
            by simpa using hd, ?_⟩
          intro m b hm hm0
          rcases m with _ | _ | _ | m
          · omega
          · omega
          · omega
          · simp only [List.getElem?_cons_succ] at hm
            have := hnext m b hm (by omega)
            omega
      | some err =>
        have htr : runTrace proc (QEntry.item i :: rest) =
            QueueOp.get i :: QueueOp.handleErr err :: QueueOp.forget i ::
              QueueOp.done i :: runTrace proc rest := by
          simp [runTrace, hp]
        rw [htr] at h ⊢
        rcases n with _ | _ | _ | _ | n
        · have ha : i = a := by simpa using h
          subst ha
          refine ⟨2, 3, by omega, by omega, by simp, by simp, ?_⟩
          intro m b hm hm0
          rcases m with _ | _ | _ | _ | m
          · omega
          · simp at hm
          · simp at hm
          · simp at hm
          · omega
        · simp at h
        · simp at h
        · simp at h
        · simp only [List.getElem?_cons_succ] at h
          obtain ⟨k1, k2, hk1, hk12, hf, hd, hnext⟩ := ih n h
          refine ⟨k1 + 4, k2 + 4, by omega, by omega, by simpa using hf,
            by simpa using hd, ?_⟩
          intro m b hm hm0
          rcases m with _ | _ | _ | _ | m
          · omega
          · omega
          · omega
          · omega
          · simp only [List.getElem?_cons_succ] at hm
            have := hnext m b hm (by omega)
            omega

/-- C3 witness: the first dequeued item of a concrete two-item queue. -/
theorem run_forget_done_before_next_get_witness :
    ∃ k1 k2, 0 < k1 ∧ k1 < k2 ∧
      (runTrace (fun _ : Nat => none) [QEntry.item 0, QEntry.item 1])[k1]? =
        some (QueueOp.forget 0) ∧
      (runTrace (fun _ : Nat => none) [QEntry.item 0, QEntry.item 1])[k2]? =
        some (QueueOp.done 0) ∧
      ∀ m (b : Nat),
        (runTrace (fun _ : Nat => none) [QEntry.item 0, QEntry.item 1])[m]? =
          some (QueueOp.get b) → 0 < m → k2 < m :=
  run_forget_done_before_next_get (fun _ => none)
    [QEntry.item 0, QEntry.item 1] 0 0 rfl

/-- `finalizeCHI` returns nil on every path. -/
theorem finalizeCHI_snd_none (c : Bool) (env : FinalizeEnv) :
    (finalizeCHI c env).2 = none := by
  unfold finalizeCHI
  split <;> try rfl
  split <;> try rfl
  split <;> try rfl
  split <;> rfl

/-- `updateCHI` returns nil on every path: in particular a failing
`reconcile` is logged as an event and swallowed (worker.go line 331). -/
theorem updateCHI_snd_none (u : Bool) (env : UpdateEnv) :
    (updateCHI u env).2.2 = none := by
  unfold updateCHI
  split
  · rfl
  split
  · split
    · rfl
    split
    · rfl
    cases hre : env.reconcileErr <;> simp [hre]
  · simpa using finalizeCHI_snd_none false env.finalizeEnv

/-- A concrete update reconcile whose inner `reconcile` walk fails:
resource version changed, not being deleted, the action plan has work, the
initial status write succeeds, and `w.reconcile` returns an error. -/
def envReconcileFails : UpdateEnv :=
  { resourceVersionUnchanged := false
    deletionTimestampIsZero := true
    finalizers := []
    hasActionsToDo := true
    statusStartErr := none
    isStopped := false
    hostsAttrs := []
    reconcileErr := some KErr.other
    addedHostsOnUpdate := 0
    removedTrace := []
    finalizeEnv :=
      { curFetchFailed := false
        finalizerPresent := false
        statusWriteErr := none
        deleteEnv := { ctxDone2 := false, normalizeErr := none, clustersTrace := [] } } }

def denvReconcileFails : DispatchEnv :=
  { updateEnv := envReconcileFails
    deleteEnv := { ctxDone2 := false, normalizeErr := none, clustersTrace := [] }
    chitResult := none
    chopConfigResult := none }

/-- C4 counterexample: with a live context and a `ReconcileCHI Update`
item whose reconcile walk fails, `processItem` returns nil, not the
reconcile error — the error never reaches the runtime error handler. -/
theorem processItem_swallows_reconcile_error :
    (processItem false (Command.reconcileCHI CmdKind.update)
        denvReconcileFails).2 = none ∧
      ¬ (processItem false (Command.reconcileCHI CmdKind.update)
          denvReconcileFails).2 = some KErr.other := by
  constructor <;> decide

/-- C4 amended: an error returned by `processItem` is handed to the
runtime error handler right after the item's `Get`, and the worker never
emits the queue's re-enqueue call; however `updateCHI` returns nil on
every path, so a failing reconcile inside it is logged and swallowed
rather than surfaced. -/
theorem run_surfaces_errors_never_reenqueues {α : Type}
    (proc : α → Option KErr) (entries : List (QEntry α)) :
    (∀ (n : Nat) (i : α) (e : KErr),
        (runTrace proc entries)[n]? = some (QueueOp.get i) →
        proc i = some e →
        (runTrace proc entries)[n + 1]? = some (QueueOp.handleErr e)) ∧
    (∀ j : α, QueueOp.addRateLimited j ∉ runTrace proc entries) ∧
    (∀ (u : Bool) (env : UpdateEnv), (updateCHI u env).2.2 = none) := by
  refine ⟨?_, ?_, fun u env => updateCHI_snd_none u env⟩
  · intro n i e h hp
    induction entries generalizing n with
    | nil => simp [runTrace] at h
    | cons x rest ih =>
      cases x with
      | shutdown => rcases n with _ | n <;> simp [runTrace] at h
      | item j =>
        cases hj : proc j with
        | none =>
          have htr : runTrace proc (QEntry.item j :: rest) =
              QueueOp.get j :: QueueOp.forget j :: QueueOp.done j ::
                runTrace proc rest := by
            simp [runTrace, hj]
          rw [htr] at h ⊢
          rcases n with _ | _ | _ | n
          · have hij : j = i := by simpa using h
            subst hij
            rw [hj] at hp
            exact absurd hp (by simp)
          · simp at h
          · simp at h
          · simp only [List.getElem?_cons_succ] at h ⊢
            exact ih n h
        | some e0 =>
          have htr : runTrace proc (QEntry.item j :: rest) =
              QueueOp.get j :: QueueOp.handleErr e0 :: QueueOp.forget j ::
                QueueOp.done j :: runTrace proc rest := by
            simp [runTrace, hj]
          rw [htr] at h ⊢
          rcases n with _ | _ | _ | _ | n
          · have hij : j = i := by simpa using h
            subst hij
            rw [hj] at hp
            have : e0 = e := by simpa using hp
            subst this
            simp
          · simp at h
          · simp at h
          · simp at h
          · simp only [List.getElem?_cons_succ] at h ⊢
            exact ih n h
  · intro j
    induction entries with
    | nil => simp [runTrace]
    | cons x rest ih =>
      cases x with
      | shutdown => simp [runTrace]
      | item i =>
        cases hi : proc i <;> simp [runTrace, hi] <;> exact ih

/-- C4 witness: a one-item queue whose processing fails with a concrete
error, and the concrete swallowed-reconcile environment. -/
theorem run_surfaces_errors_never_reenqueues_witness :
    (runTrace (fun _ : Nat => some KErr.other) [QEntry.item 0])[0 + 1]? =
        some (QueueOp.handleErr KErr.other) ∧
      QueueOp.addRateLimited 0 ∉
        runTrace (fun _ : Nat => some KErr.other) [QEntry.item 0] ∧
      (updateCHI true envReconcileFails).2.2 = none :=
  ⟨(run_surfaces_errors_never_reenqueues (fun _ : Nat => some KErr.other)
      [QEntry.item 0]).1 0 0 KErr.other rfl rfl,
    (run_surfaces_errors_never_reenqueues (fun _ : Nat => some KErr.other)
      [QEntry.item 0]).2.1 0,
    (run_surfaces_errors_never_reenqueues (fun _ : Nat => some KErr.other)
      [QEntry.item 0]).2.2 true envReconcileFails⟩

/-- C5: with the context already done at entry, every reconcile helper —
`processItem`, `excludeHost`, `includeHost`, `reconcileHost`, the
ConfigMap / Service / StatefulSet / volume reconcilers, `deleteCHI` and
`finalizeCHI` — performs no operation (empty trace), leaves status and
attributes untouched, and returns nil rather than a cancellation error.
`includeHost` has no entry check of its own, but its ConfigMap reconcile
and its poll each perform one, so its trace is empty as well. -/
theorem context_done_is_noop (cfg : OperatorConfig) (cmd : Command)
    (denv : DispatchEnv) (cme : CMEnv) (host : ChiHost)
    (status : StatefulSetStatus) (attrs : ReconcileAttributes)
    (st : CHIStatus) (henv : HostEnv) (cmk : CMKind)
    (g u c : Option KErr) (upd : Bool) (opts : Option RemoteServersOptions)
    (sts : StatefulSetStatus) (mts : List MountEnv) (n : Nat)
    (p d : ResourceList) (nm : String) (denv2 : DeleteEnv)
    (fenv : FinalizeEnv) :
    processItem true cmd denv = ([], none) ∧
    excludeHost cfg true cme host status = ([], none) ∧
    includeHost cfg true cme host status = ([], none) ∧
    reconcileHost cfg true host attrs st henv = (attrs, st, [], none) ∧
    reconcileConfigMap true cmk g u c upd = ([], none) ∧
    reconcileCHIConfigMaps true cme opts upd = ([], none) ∧
    reconcileService true g u c = ([], none) ∧
    updateService true u = ([], none) ∧
    reconcileStatefulSet true st sts g u mts c = (st, [], none) ∧
    createStatefulSet true st c = (st, [], none) ∧
    updateStatefulSet true st u mts c = (st, [], none) ∧
    reconcilePersistentVolumes true n = [] ∧
    reconcilePersistentVolumeClaims true mts = ([], none) ∧
    reconcileResources true p d = (p, []) ∧
    reconcileResource true p d nm = (p, []) ∧
    deleteCHI true denv2 = ([], none) ∧
    finalizeCHI true fenv = ([], none) := by
  refine ⟨rfl, rfl, ?_, rfl, rfl, rfl, rfl, rfl, rfl, rfl, rfl, rfl, rfl,
    rfl, rfl, rfl, rfl⟩
  unfold includeHost reconcileCHIConfigMaps waitHostInCluster pollHostContext
  cases h : shouldWaitIncludeHost cfg host status <;> simp [h]

/-- C6: after the action plan's walks in an update reconcile (both old and
new CHI present), the two `WalkHosts` passes leave every host with
`Migrate` set, every host carrying neither `Add` nor `Modify` with
`Unclear` set, and hence every host marked `Add`, `Modify` or `Unclear`. -/
theorem markMigrateUnclear_marks (hosts : List ReconcileAttributes)
    (a : ReconcileAttributes) (ha : a ∈ markMigrateUnclear true hosts) :
    a.migrate = true ∧
    (a.add = false → a.modify = false → a.unclear = true) ∧
    (a.add = true ∨ a.modify = true ∨ a.unclear = true) := by
  simp only [markMigrateUnclear, List.map_map, List.mem_map] at ha
  obtain ⟨b, _, rfl⟩ := ha
  by_cases hA : b.add <;> by_cases hM : b.modify <;>
    simp [ReconcileAttributes.setMigrate, ReconcileAttributes.setUnclear,
      hA, hM]

/-- C6 witness: a one-host CHI whose host left the walks unmarked. -/
theorem markMigrateUnclear_marks_witness :
    let a : ReconcileAttributes :=
      { add := false, modify := false, unclear := true, migrate := true,
        reconciled := false }
    a.migrate = true ∧
    (a.add = false → a.modify = false → a.unclear = true) ∧
    (a.add = true ∨ a.modify = true ∨ a.unclear = true) :=
  markMigrateUnclear_marks
    [{ add := false, modify := false, unclear := false, migrate := false,
        reconciled := false }]
    _ (by decide)

/-- C7: the service `updateService` submits keeps the current service's
`clusterIP`; keeps the current `healthCheckNodePort` whenever both sides
have `ExternalTrafficPolicy = Local`; and whenever both services are of
type NodePort or both of type LoadBalancer, a new port entry whose `port`
number matches a current one is replaced wholesale by that current entry
(the first match), so the submitted entry — `nodePort` included — equals a
pre-update current entry with the same port number. -/
theorem updateService_preserves_immutable (cur new : KService) :
    (prepareServiceForUpdate cur new).spec.clusterIP = cur.spec.clusterIP ∧
    (cur.spec.externalTrafficPolicy = TrafficPolicy.localOnly →
      new.spec.externalTrafficPolicy = TrafficPolicy.localOnly →
      (prepareServiceForUpdate cur new).spec.healthCheckNodePort =
        cur.spec.healthCheckNodePort) ∧
    (∀ (i : Nat) (np cp : ServicePort),
      ((cur.spec.type = ServiceType.nodePort ∧
          new.spec.type = ServiceType.nodePort) ∨
        (cur.spec.type = ServiceType.loadBalancer ∧
          new.spec.type = ServiceType.loadBalancer)) →
      new.spec.ports[i]? = some np →
      cur.spec.ports.find? (fun p => p.port == np.port) = some cp →
      (prepareServiceForUpdate cur new).spec.ports[i]? = some cp ∧
        cp ∈ cur.spec.ports ∧ cp.port = np.port) := by
  refine ⟨?_, ?_, ?_⟩
  · simp only [prepareServiceForUpdate]
    split <;> split <;> rfl
  · intro h1 h2
    simp only [prepareServiceForUpdate]
    split <;> split <;> simp_all
  · intro i np cp hty hnp hfind
    refine ⟨?_, List.mem_of_find?_eq_some hfind, ?_⟩
    · simp only [prepareServiceForUpdate]
      rw [if_pos hty]
      split <;>
        simp [List.getElem?_map, hnp, reusePort, hfind]
    · have := List.find?_some hfind
      simpa using this

/-- A concrete NodePort service pair for the C7 witness: the platform has
assigned nodePort 30001 and healthCheckNodePort 32000 to the current
service, which the rebuilt new service does not know. -/
def curPortW : ServicePort :=
  { portName := "http", port := 8123, targetPort := 8123, nodePort := 30001 }

def newPortW : ServicePort :=
  { portName := "http", port := 8123, targetPort := 8123, nodePort := 0 }

def curSvcW : KService :=
  { labels := [], annotations := [], finalizers := [], resourceVersion := 5
    spec :=
      { type := ServiceType.nodePort, ports := [curPortW]
        clusterIP := "10.96.0.17"
        externalTrafficPolicy := TrafficPolicy.localOnly
        healthCheckNodePort := 32000 } }

def newSvcW : KService :=
  { labels := [], annotations := [], finalizers := [], resourceVersion := 0
    spec :=
      { type := ServiceType.nodePort, ports := [newPortW]
        clusterIP := ""
        externalTrafficPolicy := TrafficPolicy.localOnly
        healthCheckNodePort := 0 } }

/-- C7 witness: the concrete pair above. -/
theorem updateService_preserves_immutable_witness :
    (prepareServiceForUpdate curSvcW newSvcW).spec.clusterIP =
        curSvcW.spec.clusterIP ∧
      (prepareServiceForUpdate curSvcW newSvcW).spec.healthCheckNodePort =
        curSvcW.spec.healthCheckNodePort ∧
      (prepareServiceForUpdate curSvcW newSvcW).spec.ports[0]? = some curPortW :=
  ⟨(updateService_preserves_immutable curSvcW newSvcW).1,
    (updateService_preserves_immutable curSvcW newSvcW).2.1 rfl rfl,
    ((updateService_preserves_immutable curSvcW newSvcW).2.2 0 newPortW curPortW
      (Or.inl ⟨rfl, rfl⟩) rfl rfl).1⟩

/-! ### Lemmas about resource lists -/

theorem lookupResource_cons (a : String × Int) (t : ResourceList)
    (m : String) :
    lookupResource (a :: t) m =
      if a.1 = m then some a.2 else lookupResource t m := by
  by_cases h : a.1 = m
  · unfold lookupResource
    rw [List.find?_cons_of_pos]
    · simp [h]
    · simp [h]
  · unfold lookupResource
    rw [List.find?_cons_of_neg]
    · simp [h]
    · simp [h]

theorem setResourceQuantity_cons (a : String × Int) (t : ResourceList)
    (k : String) (v : Int) :
    setResourceQuantity (a :: t) k v =
      (if a.1 = k then (a.1, v) else a) :: setResourceQuantity t k v := by
  simp [setResourceQuantity]

theorem lookupResource_set_self (l : ResourceList) (k : String) (v : Int) :
    lookupResource (setResourceQuantity l k v) k =
      (lookupResource l k).map (fun _ => v) := by
  induction l with
  | nil => rfl
  | cons a t ih =>
    rw [setResourceQuantity_cons, lookupResource_cons, lookupResource_cons]
    by_cases hk : a.1 = k
    · rw [if_pos hk, if_pos hk]
      simp [hk]
    · rw [if_neg hk, if_neg hk, if_neg hk, ih]

theorem lookupResource_set_ne (l : ResourceList) (k : String) (v : Int)
    (m : String) (h : m ≠ k) :
    lookupResource (setResourceQuantity l k v) m = lookupResource l m := by
  induction l with
  | nil => rfl
  | cons a t ih =>
    rw [setResourceQuantity_cons, lookupResource_cons, lookupResource_cons]
    by_cases hk : a.1 = k
    · rw [if_pos hk]
      have hkm : ((a.1, v) : String × Int).1 ≠ m := by
        intro hmm
        exact h (by rw [← hmm]; exact hk)
      rw [if_neg hkm, if_neg (by simpa using hkm), ih]
    · rw [if_neg hk]
      by_cases hm : a.1 = m
      · rw [if_pos hm, if_pos hm]
      · rw [if_neg hm, if_neg hm, ih]

theorem lookupResource_isSome_iff (l : ResourceList) (m : String) :
    (lookupResource l m).isSome = true ↔ m ∈ l.map Prod.fst := by
  induction l with
  | nil => simp [lookupResource]
  | cons a t ih =>
    rw [lookupResource_cons]
    by_cases h : a.1 = m
    · simp [h]
    · rw [if_neg h, ih]
      have h2 : ¬ m = a.1 := fun hh => h hh.symm
      simp [List.map_cons, List.mem_cons, h2]

theorem reconcileResource_lookup_self (l d : ResourceList) (n : String) :
    lookupResource (reconcileResource false l d n).1 n =
      if (lookupResource l n).isSome ∧ (lookupResource d n).isSome then
        lookupResource d n
      else lookupResource l n := by
  unfold reconcileResource
  cases hl : lookupResource l n with
  | none => simp [hl]
  | some pq =>
    cases hd : lookupResource d n with
    | none => simp [hl, hd]
    | some dq =>
      by_cases he : pq = dq
      · subst he
        simp [hl, hd]
      · simp only [hl, hd, if_neg he]
        simp [lookupResource_set_self, hl, hd]

theorem reconcileResource_lookup_ne (l d : ResourceList) (n m : String)
    (h : m ≠ n) :
    lookupResource (reconcileResource false l d n).1 m = lookupResource l m := by
  unfold reconcileResource
  cases hl : lookupResource l n with
  | none => simp
  | some pq =>
    cases hd : lookupResource d n with
    | none => simp
    | some dq =>
      by_cases he : pq = dq
      · simp [he]
      · simp [he, lookupResource_set_ne l n dq m h]

/-- The intersection fold of `reconcileResourcesList`: a name's final
quantity is the desired one exactly when the name was visited and both
sides carry it, and is untouched otherwise. -/
theorem reconcileResourcesStep_fold_lookup (desL : ResourceList)
    (names : List String) :
    ∀ (l : ResourceList) (t : List Op) (m : String),
      lookupResource
          ((names.foldl (reconcileResourcesStep false desL) (l, t)).1) m =
        if m ∈ names ∧ (lookupResource l m).isSome ∧
            (lookupResource desL m).isSome then
          lookupResource desL m
        else lookupResource l m := by
  induction names with
  | nil => intro l t m; simp
  | cons n rest ih =>
    intro l t m
    have hstep : (reconcileResourcesStep false desL (l, t) n) =
        ((reconcileResource false l desL n).1,
          t ++ (reconcileResource false l desL n).2) := rfl
    simp only [List.foldl_cons, hstep]
    rw [ih]
    by_cases hmn : m = n
    · subst hmn
      rw [reconcileResource_lookup_self]
      by_cases hc : (lookupResource l m).isSome = true ∧
          (lookupResource desL m).isSome = true
      · rw [if_pos hc]
        have hds : (lookupResource desL m).isSome = true := hc.2
        by_cases hr : m ∈ rest <;> simp [hr, hds, List.mem_cons, hc]
      · rw [if_neg hc]
        have : ¬ (m ∈ rest ∧ (lookupResource l m).isSome = true ∧
            (lookupResource desL m).isSome = true) := by
          intro hx
          exact hc ⟨hx.2.1, hx.2.2⟩
        rw [if_neg this]
        have hx : ¬ (m ∈ m :: rest ∧ (lookupResource l m).isSome = true ∧
            (lookupResource desL m).isSome = true) := by
          intro hy
          exact hc ⟨hy.2.1, hy.2.2⟩
        rw [if_neg hx]
    · rw [reconcileResource_lookup_ne _ _ _ _ hmn]
      have hmem : (m ∈ n :: rest) ↔ (m ∈ rest) := by
        simp [List.mem_cons, hmn]
      by_cases hr : m ∈ rest ∧ (lookupResource l m).isSome = true ∧
          (lookupResource desL m).isSome = true
      · rw [if_pos hr, if_pos ⟨hmem.mpr hr.1, hr.2.1, hr.2.2⟩]
      · rw [if_neg hr]
        have : ¬ (m ∈ n :: rest ∧ (lookupResource l m).isSome = true ∧
            (lookupResource desL m).isSome = true) := by
          intro hy
          exact hr ⟨hmem.mp hy.1, hy.2.1, hy.2.2⟩
        rw [if_neg this]

/-- C8: after the PVC resource reconcile, a resource name present in both
the PVC's requests and the template's desired requests carries the desired
quantity, and a name present on at most one side is untouched (the PVC's
list is returned unchanged at it, missing names stay missing). -/
theorem reconcileResourcesList_updates_intersection (pvcL desL : ResourceList)
    (name : String) :
    lookupResource (reconcileResourcesList false pvcL desL).1 name =
      if (lookupResource pvcL name).isSome ∧
          (lookupResource desL name).isSome then
        lookupResource desL name
      else lookupResource pvcL name := by
  unfold reconcileResourcesList
  simp only [Bool.false_eq_true, if_false]
  rw [reconcileResourcesStep_fold_lookup]
  have hmem : name ∈ (pvcL.map Prod.fst).filter
      (fun n => (desL.map Prod.fst).contains n) ↔
      ((lookupResource pvcL name).isSome = true ∧
        (lookupResource desL name).isSome = true) := by
    rw [List.mem_filter]
    rw [lookupResource_isSome_iff, lookupResource_isSome_iff]
    constructor
    · intro ⟨h1, h2⟩
      refine ⟨h1, ?_⟩
      simpa using h2
    · intro ⟨h1, h2⟩
      refine ⟨h1, ?_⟩
      simpa using h2
  by_cases hc : (lookupResource pvcL name).isSome = true ∧
      (lookupResource desL name).isSome = true
  · rw [if_pos ⟨hmem.mpr hc, hc.1, hc.2⟩, if_pos hc]
  · rw [if_neg hc, if_neg ?_]
    intro hy
    exact hc ⟨hy.2.1, hy.2.2⟩

/-- C9 (code bug): with the finalizer already listed on the CHI,
`ensureFinalizer` still calls `installFinalizer` — the presence check only
feeds a log line and control falls through the "No finalizer found - need
to install it" comment, so the install is emitted even though the claim
(and the function's own comments) say it should not be. -/
theorem ensureFinalizer_installs_even_when_present :
    FinalizerName ∈ [FinalizerName] ∧
      Op.installFinalizerOp ∈ ensureFinalizer [FinalizerName] := by
  constructor
  · simp
  · simp [ensureFinalizer]

/-- C10: on a live context `createStatefulSet` bumps `AddedHostsCount` by
exactly one and attempts a status write whatever the platform create
returned (whose error it passes through), and never touches
`UpdatedHostsCount`; `updateStatefulSet` bumps `UpdatedHostsCount` by one
exactly on a successful platform update, and leaves it unchanged on a
failed one (the fallback recreate only bumps `AddedHostsCount`). -/
theorem statefulSet_status_counters (st : CHIStatus) (e : Option KErr)
    (e2 : KErr) (mts : List MountEnv) (c : Option KErr) :
    (createStatefulSet false st e).1.addedHostsCount =
        st.addedHostsCount + 1 ∧
      Op.updateCHIStatusOp ∈ (createStatefulSet false st e).2.1 ∧
      (createStatefulSet false st e).1.updatedHostsCount =
        st.updatedHostsCount ∧
      (createStatefulSet false st e).2.2 = e ∧
      (updateStatefulSet false st none mts c).1.updatedHostsCount =
        st.updatedHostsCount + 1 ∧
      (updateStatefulSet false st (some e2) mts c).1.updatedHostsCount =
        st.updatedHostsCount ∧
      (updateStatefulSet false st (some e2) mts c).1.addedHostsCount =
        st.addedHostsCount + 1 := by
  refine ⟨rfl, by simp [createStatefulSet], rfl, rfl, rfl, ?_, ?_⟩ <;>
    simp [updateStatefulSet, createStatefulSet]

end ChiWorker
